import Mathlib

/-!
Shallow embedding of the markov_bot conversation-model cache
(src/chain_wrapper.rs, src/utils.rs, src/gdrive.rs).

Modelling conventions:
* `markov::Chain<String>` is opaque to the repository; it is modelled as the
  list of lines fed to it (`Chain.fed`).  `Chain::is_empty` is true iff nothing
  has been fed; `Chain::feed_str` appends the line.  The random draw of
  `Chain::generate_str` / `generate_str_from_token` is modelled by oracles
  (`gen : Nat → String` giving the result of the i-th unconstrained draw of a
  call, `genFrom : String → String` giving the seeded draw).
* `SystemTime` is a `Nat`; `SystemTime::now()` is an explicit `now` parameter;
  `SystemTime::elapsed()` returns `Err` (and `.unwrap()` panics) exactly when
  the stored time lies in the future, modelled by `Option`.
* The Google Drive blob store keyed by `chat_id.to_string()` is a function
  `Int → Option Blob` (keying by the `Int` itself; `to_string` on `i64` is
  injective).  A stored blob either deserializes to a `ChainInfo`
  (`Blob.good`) or fails `bincode::deserialize` (`Blob.corrupt emsg`).
  Transient failures of the retry-wrapped store calls are environment
  decisions, modelled by explicit failure oracles (`Option String`: `some e`
  means the call fails after retries with message `e`).
* `bincode::serialize` (`get_bincode`) cannot fail in this model: its only
  failure source is a pre-UNIX-epoch `SystemTime`, excluded by the `Nat` time
  model.
-/

/-- Model of `markov::Chain<String>`: the list of training lines fed so far. -/
structure Chain where
  fed : List String
deriving DecidableEq

/-- Model of `Chain::<String>::new()`. -/
def Chain.new : Chain := ⟨[]⟩

/-- Model of `Chain::is_empty`: no training data has been fed. -/
def Chain.is_empty (c : Chain) : Bool := c.fed.isEmpty

/-- Model of `Chain::feed_str`. -/
def Chain.feed_str (c : Chain) (s : String) : Chain := ⟨c.fed ++ [s]⟩

/-- Mirror of `struct ChainInfo` (src/chain_wrapper.rs lines 15-21). -/
structure ChainInfo where
  chain : Chain
  chat_id : Int
  is_learning : Bool
  last_accessed : Nat
deriving DecidableEq

/-- A persisted payload: bytes that either deserialize back to a `ChainInfo`
or fail `bincode::deserialize` with message `emsg`. -/
inductive Blob where
  | good : ChainInfo → Blob
  | corrupt : String → Blob
deriving DecidableEq

/-- The Google Drive folder contents: one optional blob per chat id. -/
abbrev BlobStore : Type := Int → Option Blob

/-- Model of `gdrive::update_or_create_file` (src/gdrive.rs lines 179-188):
on success the blob under `name` is replaced/created and `none` is returned;
on failure (all retries exhausted, decided by the oracle `fail`) the store is
unchanged and `some` error text is returned. -/
def update_or_create_file (store : BlobStore) (bytes : Blob) (name : Int)
    (fail : Option String) : BlobStore × Option String :=
  match fail with
  | none => (fun k => if k = name then some bytes else store k, none)
  | some e => (store, some e)

/-- Model of `gdrive::download_file` (src/gdrive.rs lines 191-227): either the
whole call fails after retries (oracle `fail`), or it returns the blob (if
any) stored under `name`. -/
def download_file (store : BlobStore) (name : Int) (fail : Option String) :
    Except String (Option Blob) :=
  match fail with
  | some e => Except.error e
  | none => Except.ok (store name)

/-- Model of `ChainInfo::get_bincode` (lines 25-27): serialization of the
record; always succeeds under the `Nat` time model. -/
def ChainInfo.get_bincode (c : ChainInfo) : Blob := Blob.good c

/-- Model of `ChainInfo::serialize_to_gdrive` (lines 30-37): upload the
serialized record only when the chain is non-empty; an empty chain uploads
nothing and reports success (`none`). -/
def ChainInfo.serialize_to_gdrive (c : ChainInfo) (store : BlobStore)
    (putFail : Option String) : BlobStore × Option String :=
  if !c.chain.is_empty then
    update_or_create_file store c.get_bincode c.chat_id putFail
  else
    (store, none)

/-- Model of `ChainInfo::deserialize_from_gdrive` (lines 40-51): download the
blob; absent blob gives `ok none`; a blob that fails `bincode::deserialize`
gives `error` (the error is propagated, the blob is left in place — the
function performs no store write). -/
def ChainInfo.deserialize_from_gdrive (store : BlobStore) (chat_id : Int)
    (dlFail : Option String) : Except String (Option ChainInfo) :=
  match download_file store chat_id dlFail with
  | Except.error e => Except.error e
  | Except.ok none => Except.ok none
  | Except.ok (some (Blob.good c)) => Except.ok (some c)
  | Except.ok (some (Blob.corrupt emsg)) =>
      Except.error ("Deserialization failed for " ++ toString chat_id ++ ": " ++ emsg)

/-- Model of `ChainInfo::new` (lines 54-72): load the persisted record if one
exists (refreshing `last_accessed`), else a fresh empty record; store-level
and deserialization errors are returned as `error`. -/
def ChainInfo.new (store : BlobStore) (chat_id : Int) (dlFail : Option String)
    (now : Nat) : Except String ChainInfo :=
  match ChainInfo.deserialize_from_gdrive store chat_id dlFail with
  | Except.error e => Except.error e
  | Except.ok (some chain_info) => Except.ok { chain_info with last_accessed := now }
  | Except.ok none =>
      Except.ok { chain := Chain.new, chat_id := chat_id, is_learning := true,
                  last_accessed := now }

/-- Model of Rust `str::lines`: split on newline, dropping one trailing empty
segment and any carriage return left at a line end. -/
def rustLines (s : String) : List String :=
  let parts := s.splitOn "\n"
  let parts := if parts.getLast? = some "" then parts.dropLast else parts
  parts.map (fun l => if l.endsWith "\r" then l.dropRight 1 else l)

/-- Model of `ChainInfo::feed` (lines 80-91): touch `last_accessed`; when
learning, feed each line of `msg`, trimmed, skipping lines blank after
trimming. -/
def ChainInfo.feed (c : ChainInfo) (now : Nat) (msg : String) : ChainInfo :=
  let c := { c with last_accessed := now }
  if c.is_learning then
    let fedChain := (rustLines msg).foldl
      (fun ch line =>
        let ln := line.trim
        if ln ≠ "" then ch.feed_str ln else ch)
      c.chain
    { c with chain := fedChain }
  else
    c

/-- Loop body of `ChainInfo::gen_loop` (lines 96-109): `fuel` draws remain,
`i` is the index of the next draw of the oracle `gen`. -/
def gen_loop_go (gen : Nat → String) : Nat → Nat → Option String
  | 0, _ => none
  | fuel + 1, i =>
      let sth := gen i
      if sth.trim.isEmpty then gen_loop_go gen fuel (i + 1) else some sth

/-- Model of `ChainInfo::gen_loop`: draw from the chain until a non-blank
result appears, giving up (`none`) after 10 draws. -/
def gen_loop (gen : Nat → String) : Option String := gen_loop_go gen 10 0

/-- Model of `ChainInfo::generate` (lines 112-132): touch `last_accessed`;
an empty chain answers the fixed message; a blank token runs the
unconstrained loop; a non-blank token draws a seeded sequence, falling back
to the unconstrained loop when that draw is blank. -/
def ChainInfo.generate (c : ChainInfo) (now : Nat) (gen : Nat → String)
    (genFrom : String → String) (token : String) : ChainInfo × Option String :=
  let c := { c with last_accessed := now }
  if !c.chain.is_empty then
    if token.trim.isEmpty then
      (c, gen_loop gen)
    else
      let sth := genFrom token
      if sth.trim.isEmpty then (c, gen_loop gen) else (c, some sth)
  else
    (c, some "[no phrases learnt]")

/-- Model of `ChainInfo::toggle_learning` (lines 135-145). -/
def ChainInfo.toggle_learning (c : ChainInfo) (now : Nat) : ChainInfo × String :=
  let c := { c with last_accessed := now }
  if c.is_learning then
    ({ c with is_learning := false }, "[learning disabled]")
  else
    ({ c with is_learning := true }, "[learning enabled]")

/-- Model of `ChainInfo::clear_data` (lines 148-156): reset the chain,
re-enable learning, touch `last_accessed`, then upload the serialization of
the now-empty record to the store (the blob is overwritten, not deleted). -/
def ChainInfo.clear_data (c : ChainInfo) (now : Nat) (store : BlobStore)
    (putFail : Option String) : ChainInfo × BlobStore × Option String :=
  let c := { c with chain := Chain.new, is_learning := true, last_accessed := now }
  let binc := c.get_bincode
  let res := update_or_create_file store binc c.chat_id putFail
  (c, res.1, res.2)

/-- Model of `impl Drop for ChainInfo` (lines 160-166): on drop the record is
serialized to the store (a no-op for an empty chain); a failure is only
logged. -/
def ChainInfo.drop (c : ChainInfo) (store : BlobStore) (putFail : Option String) :
    BlobStore :=
  (c.serialize_to_gdrive store putFail).1

/-- Model of `utils::random_durations`'s backoff source,
`retry::delay::Exponential::from_millis(2)` (src/utils.rs lines 12-18): the
i-th delay before jitter, in milliseconds; the base doubles each step. -/
def exponentialFromMillis (base : ℚ) : Nat → ℚ
  | 0 => base
  | n + 1 => exponentialFromMillis base n * base

/-- Model of `retry::delay::jitter`: multiply the delay by a random factor
(the oracle `jit i`, a fraction in `[0,1)`). -/
def jitterDelay (jit : Nat → ℚ) (i : Nat) (d : ℚ) : ℚ := d * jit i

/-- Model of `utils::random_durations` (src/utils.rs lines 12-18): five
delays, each an exponentially growing base with jitter applied, scaled
by 100. -/
def random_durations (jit : Nat → ℚ) : List ℚ :=
  (List.range 5).map (fun i => jitterDelay jit i (exponentialFromMillis 2 i) * 100)

/-- Execution of `retry::retry` (the retry crate called by
`utils::exponential_retry`): try the operation once, then once more per
remaining delay; returns the result together with the number of invocations
performed.  `op i` is the outcome of the i-th invocation. -/
def retryRun {E A : Type} (op : Nat → Except E A) :
    List ℚ → Nat → Except E A × Nat
  | [], i =>
    match op i with
    | Except.ok a => (Except.ok a, i + 1)
    | Except.error e => (Except.error e, i + 1)
  | _ :: rest, i =>
    match op i with
    | Except.ok a => (Except.ok a, i + 1)
    | Except.error _ => retryRun op rest (i + 1)

/-- Model of `utils::exponential_retry` (src/utils.rs lines 22-27): the retry
crate driven by `random_durations` (1 initial attempt + one retry per delay).
Returns the overall result and the number of invocations of the closure. -/
def exponential_retry {E A : Type} (jit : Nat → ℚ) (op : Nat → Except E A) :
    Except E A × Nat :=
  retryRun op (random_durations jit) 0

/-- Execution of the loop of `utils::exponential_retry_async` (lines 30-47):
one delay-then-attempt per duration; `acc` holds the last error seen.  The
first component is `none` exactly when the final `err.unwrap()` would panic
(no attempt was ever made). -/
def retryAsyncRun {E A : Type} (op : Nat → Except E A) :
    List ℚ → Nat → Option E → Option (Except E A) × Nat
  | [], i, acc => (acc.map Except.error, i)
  | _ :: rest, i, _acc =>
    match op i with
    | Except.ok a => (some (Except.ok a), i + 1)
    | Except.error e => retryAsyncRun op rest (i + 1) (some e)

/-- Model of `utils::exponential_retry_async`: the asynchronous variant waits
before every attempt (including the first) and makes one attempt per
duration. -/
def exponential_retry_async {E A : Type} (jit : Nat → ℚ)
    (op : Nat → Except E A) : Option (Except E A) × Nat :=
  retryAsyncRun op (random_durations jit) 0 none

/-- The lazily-initialized constant `COMMAND_FAILED` (src/chain_wrapper.rs
line 181). -/
def COMMAND_FAILED : String := "[command failed, please try again later]"

/-- The in-memory cache `ChainWrapper.chains : HashMap<i64, ChainInfo>`,
modelled as an association list with distinct keys. -/
abbrev ChainMap : Type := List (Int × ChainInfo)

/-- Lookup in the cache map (`HashMap::contains_key` / indexing). -/
def ChainMap.find : ChainMap → Int → Option ChainInfo
  | [], _ => none
  | (k, v) :: tl, chat_id => if k = chat_id then some v else ChainMap.find tl chat_id

/-- Write back the (mutated-through-`&mut`) entry under an existing key. -/
def ChainMap.store_back (m : ChainMap) (chat_id : Int) (c : ChainInfo) : ChainMap :=
  m.map (fun p => if p.1 = chat_id then (chat_id, c) else p)

/-- Removal of a key from the cache map. -/
def ChainMap.erase : ChainMap → Int → ChainMap
  | [], _ => []
  | (k, v) :: tl, chat_id =>
      if k = chat_id then ChainMap.erase tl chat_id
      else (k, v) :: ChainMap.erase tl chat_id

/-- Model of `HashMap::remove`: the removed entry (if any) and the remaining
map. -/
def ChainMap.remove (m : ChainMap) (chat_id : Int) :
    Option ChainInfo × ChainMap :=
  (m.find chat_id, m.erase chat_id)

/-- Model of `ChainWrapper::err_msg` (lines 197-199). -/
def ChainWrapper.err_msg : String := COMMAND_FAILED

/-- Model of `ChainWrapper::get_chain` (lines 202-217): a resident entry is
returned as-is; otherwise `ChainInfo::new` is attempted — on success the
entry is inserted, on failure the error is returned and the map is left
unchanged.  (The `or_insert_with(panic!)` arm of the source is unreachable:
it is guarded by `contains_key`.) -/
def ChainWrapper.get_chain (m : ChainMap) (store : BlobStore) (chat_id : Int)
    (dlFail : Option String) (now : Nat) : Except String ChainInfo × ChainMap :=
  match m.find chat_id with
  | some c => (Except.ok c, m)
  | none =>
    match ChainInfo.new store chat_id dlFail now with
    | Except.ok chain => (Except.ok chain, (chat_id, chain) :: m)
    | Except.error e => (Except.error e, m)

/-- Model of `ChainWrapper::feed` (lines 220-227): resolve the entry and feed
it; a load failure is only logged (`dbg!`) and swallowed. -/
def ChainWrapper.feed (m : ChainMap) (store : BlobStore) (chat_id : Int)
    (dlFail : Option String) (now : Nat) (s : String) : ChainMap :=
  match ChainWrapper.get_chain m store chat_id dlFail now with
  | (Except.ok chain, m') => m'.store_back chat_id (chain.feed now s)
  | (Except.error _, m') => m'

/-- Model of `ChainWrapper::generate` (lines 230-241): resolve the entry and
generate; both a load failure and generation exhaustion answer the generic
`err_msg`. -/
def ChainWrapper.generate (m : ChainMap) (store : BlobStore) (chat_id : Int)
    (dlFail : Option String) (now : Nat) (gen : Nat → String)
    (genFrom : String → String) (token : String) : String × ChainMap :=
  match ChainWrapper.get_chain m store chat_id dlFail now with
  | (Except.ok chain, m') =>
    match chain.generate now gen genFrom token with
    | (c', some s) => (s, m'.store_back chat_id c')
    | (c', none) => (ChainWrapper.err_msg, m'.store_back chat_id c')
  | (Except.error _, m') => (ChainWrapper.err_msg, m')

/-- Model of `ChainWrapper::clear_data` (lines 255-266): remove the entry
from the map first; if one was resident, run `ChainInfo::clear_data` on it
(a store write of the emptied record) and report `err_msg` when that write
fails; the removed record is then dropped (its chain is empty, so drop
uploads nothing).  A non-resident id reports success untouched. -/
def ChainWrapper.clear_data (m : ChainMap) (store : BlobStore) (chat_id : Int)
    (putFail : Option String) (now : Nat) : String × ChainMap × BlobStore :=
  match m.remove chat_id with
  | (some c, m') =>
    match c.clear_data now store putFail with
    | (c', store', res) =>
      let store'' := c'.drop store' putFail
      match res with
      | some _err => (ChainWrapper.err_msg, m', store'')
      | none => ("[database cleared]", m', store'')
  | (none, m') => ("[database cleared]", m', store)

/-- Model of `ChainWrapper::is_old` (lines 274-276):
`elem.last_accessed.elapsed().unwrap() > *MAX_TIMEDELTA`.  `elapsed()` is
`Err` — and the `unwrap` panics (`none`) — when `last_accessed` lies in the
future. -/
def ChainWrapper.is_old (maxTd now : Nat) (elem : ChainInfo) : Option Bool :=
  if elem.last_accessed ≤ now then some (decide (now - elem.last_accessed > maxTd))
  else none

/-- Model of `ChainWrapper::prune` (lines 279-281): retain the entries that
are not old; each removed entry is dropped, which serializes it to the store
(when non-empty).  An `is_old` panic aborts the whole operation (`none`). -/
def ChainWrapper.prune (maxTd now : Nat) (putFail : Int → Option String) :
    ChainMap → BlobStore → Option (ChainMap × BlobStore)
  | [], store => some ([], store)
  | (chat_id, c) :: rest, store =>
    match ChainWrapper.is_old maxTd now c with
    | none => none
    | some true =>
        ChainWrapper.prune maxTd now putFail rest (c.drop store (putFail chat_id))
    | some false =>
        match ChainWrapper.prune maxTd now putFail rest store with
        | some (m', store') => some ((chat_id, c) :: m', store')
        | none => none

/-! ## Helper lemmas -/

/-- Folding the feed loop over a list of raw lines appends exactly the
trimmed non-blank lines, in order, to the chain's training data. -/
theorem feed_foldl_fed (ls : List String) (ch : Chain) :
    (ls.foldl
      (fun ch line =>
        let ln := line.trim
        if ln ≠ "" then ch.feed_str ln else ch)
      ch).fed
    = ch.fed ++ (ls.map String.trim).filter (fun l => decide (l ≠ "")) := by
  induction ls generalizing ch with
  | nil => simp
  | cons hd tl ih =>
    rw [List.foldl_cons, List.map_cons, List.filter_cons]
    by_cases h : hd.trim = ""
    · have hstep : (let ln := hd.trim
          if ln ≠ "" then ch.feed_str ln else ch) = ch := by
        simp [h]
      rw [hstep, ih]
      simp [h]
    · have hstep : (let ln := hd.trim
          if ln ≠ "" then ch.feed_str ln else ch) = ch.feed_str hd.trim := by
        simp [h]
      rw [hstep, ih]
      simp [h, Chain.feed_str]

/-- The generation loop gives up exactly when every remaining draw is blank. -/
theorem gen_loop_go_eq_none (gen : Nat → String) :
    ∀ fuel i, gen_loop_go gen fuel i = none ↔
      ∀ j, j < fuel → (gen (i + j)).trim.isEmpty = true := by
  intro fuel
  induction fuel with
  | zero => intro i; simp [gen_loop_go]
  | succ n ih =>
    intro i
    simp only [gen_loop_go]
    cases hb : (gen i).trim.isEmpty with
    | true =>
      rw [if_pos (by simp [hb]), ih (i + 1)]
      constructor
      · intro H j hj
        cases j with
        | zero => simpa using hb
        | succ j' =>
          have e : i + (j' + 1) = i + 1 + j' := by omega
          rw [e]
          exact H j' (by omega)
      · intro H j _
        have e : i + 1 + j = i + (j + 1) := by omega
        rw [e]
        exact H (j + 1) (by omega)
    | false =>
      rw [if_neg (by simp [hb])]
      simp only [reduceCtorEq, false_iff, not_forall]
      refine ⟨0, by omega, ?_⟩
      simp [hb]

/-- A successful pass of the generation loop is non-blank. -/
theorem gen_loop_go_some_nonblank (gen : Nat → String) :
    ∀ fuel i s, gen_loop_go gen fuel i = some s → s.trim.isEmpty = false := by
  intro fuel
  induction fuel with
  | zero => intro i s h; simp [gen_loop_go] at h
  | succ n ih =>
    intro i s h
    simp only [gen_loop_go] at h
    cases hb : (gen i).trim.isEmpty with
    | true =>
      rw [if_pos (by simp [hb])] at h
      exact ih (i + 1) s h
    | false =>
      rw [if_neg (by simp [hb])] at h
      simp only [Option.some.injEq] at h
      rw [← h]
      exact hb

/-- The first component of `ChainInfo::generate` is always the touched
record. -/
theorem generate_fst (c : ChainInfo) (now : Nat) (gen : Nat → String)
    (genFrom : String → String) (token : String) :
    (c.generate now gen genFrom token).1 = { c with last_accessed := now } := by
  simp only [ChainInfo.generate]
  split
  · split
    · rfl
    · split <;> rfl
  · rfl

/-- Result of `generate` on an empty chain. -/
theorem generate_snd_empty (c : ChainInfo) (now : Nat) (gen : Nat → String)
    (genFrom : String → String) (token : String) (he : c.chain.is_empty = true) :
    (c.generate now gen genFrom token).2 = some "[no phrases learnt]" := by
  simp [ChainInfo.generate, he]

/-- Result of `generate` on a non-empty chain with a blank token. -/
theorem generate_snd_blank (c : ChainInfo) (now : Nat) (gen : Nat → String)
    (genFrom : String → String) (token : String) (he : c.chain.is_empty = false)
    (ht : token.trim.isEmpty = true) :
    (c.generate now gen genFrom token).2 = gen_loop gen := by
  simp [ChainInfo.generate, he, ht]

/-- Result of `generate` with a non-blank token whose seeded draw is blank:
fall back to the unconstrained loop. -/
theorem generate_snd_seed_blank (c : ChainInfo) (now : Nat) (gen : Nat → String)
    (genFrom : String → String) (token : String) (he : c.chain.is_empty = false)
    (ht : token.trim.isEmpty = false) (hs : (genFrom token).trim.isEmpty = true) :
    (c.generate now gen genFrom token).2 = gen_loop gen := by
  simp [ChainInfo.generate, he, ht, hs]

/-- Result of `generate` with a non-blank token whose seeded draw is
non-blank. -/
theorem generate_snd_seed_ok (c : ChainInfo) (now : Nat) (gen : Nat → String)
    (genFrom : String → String) (token : String) (he : c.chain.is_empty = false)
    (ht : token.trim.isEmpty = false) (hs : (genFrom token).trim.isEmpty = false) :
    (c.generate now gen genFrom token).2 = some (genFrom token) := by
  simp [ChainInfo.generate, he, ht, hs]

/-- C9: `ChainInfo::feed` updates `last_accessed`; with learning enabled it
splits the text into lines, trims each, discards the lines blank after
trimming and feeds each remaining line to the chain individually (in order);
with learning disabled the chain is unchanged. -/
theorem feed_touches_and_trains (c : ChainInfo) (now : Nat) (msg : String) :
    (c.feed now msg).last_accessed = now ∧
    (c.feed now msg).chat_id = c.chat_id ∧
    (c.feed now msg).is_learning = c.is_learning ∧
    (c.is_learning = true →
      (c.feed now msg).chain.fed
        = c.chain.fed ++ ((rustLines msg).map String.trim).filter (fun l => decide (l ≠ ""))) ∧
    (c.is_learning = false → (c.feed now msg).chain = c.chain) := by
  have hch : c.is_learning = true → (c.feed now msg).chain
      = (rustLines msg).foldl
          (fun ch line =>
            let ln := line.trim
            if ln ≠ "" then ch.feed_str ln else ch)
          c.chain := by
    intro hl; simp [ChainInfo.feed, hl]
  refine ⟨?_, ?_, ?_, ?_, ?_⟩
  · cases hl : c.is_learning <;> simp [ChainInfo.feed, hl]
  · cases hl : c.is_learning <;> simp [ChainInfo.feed, hl]
  · cases hl : c.is_learning <;> simp [ChainInfo.feed, hl]
  · intro hl; rw [hch hl, feed_foldl_fed]
  · intro hl; simp [ChainInfo.feed, hl]

/-- Witness for C9: feeding a two-line message with learning enabled appends
exactly the trimmed non-blank lines. -/
theorem feed_touches_and_trains_witness :
    (ChainInfo.feed ⟨⟨["old"]⟩, 3, true, 0⟩ 7 "  hi \n\n there ").chain.fed
      = (⟨["old"]⟩ : Chain).fed
        ++ ((rustLines "  hi \n\n there ").map String.trim).filter (fun l => decide (l ≠ "")) :=
  (feed_touches_and_trains ⟨⟨["old"]⟩, 3, true, 0⟩ 7 "  hi \n\n there ").2.2.2.1 rfl

/-- C5: `ChainInfo::generate` updates `last_accessed`; an empty model answers
the fixed message; a blank seed runs the 10-try unconstrained loop; a
non-blank seed whose anchored draw is blank falls back to that loop instead
of failing; a failure (`none`) occurs only when all 10 unconstrained draws
were blank; a returned string is never silently blank. -/
theorem generate_retry_contract (c : ChainInfo) (now : Nat) (gen : Nat → String)
    (genFrom : String → String) (token : String) :
    ((c.generate now gen genFrom token).1.last_accessed = now) ∧
    (c.chain.is_empty = true →
      (c.generate now gen genFrom token).2 = some "[no phrases learnt]") ∧
    (c.chain.is_empty = false → token.trim.isEmpty = true →
      (c.generate now gen genFrom token).2 = gen_loop gen) ∧
    (c.chain.is_empty = false → token.trim.isEmpty = false →
      (genFrom token).trim.isEmpty = true →
      (c.generate now gen genFrom token).2 = gen_loop gen) ∧
    (c.chain.is_empty = false → token.trim.isEmpty = false →
      (genFrom token).trim.isEmpty = false →
      (c.generate now gen genFrom token).2 = some (genFrom token)) ∧
    ((c.generate now gen genFrom token).2 = none →
      ∀ j, j < 10 → (gen j).trim.isEmpty = true) ∧
    (∀ s, (c.generate now gen genFrom token).2 = some s →
      s = "[no phrases learnt]" ∨ s.trim.isEmpty = false) := by
  refine ⟨?_, ?_, ?_, ?_, ?_, ?_, ?_⟩
  · rw [generate_fst]
  · exact generate_snd_empty c now gen genFrom token
  · exact generate_snd_blank c now gen genFrom token
  · exact generate_snd_seed_blank c now gen genFrom token
  · exact generate_snd_seed_ok c now gen genFrom token
  · intro hnone j hj
    cases he : c.chain.is_empty with
    | true =>
      rw [generate_snd_empty c now gen genFrom token he] at hnone
      exact Option.noConfusion hnone
    | false =>
      cases ht : token.trim.isEmpty with
      | true =>
        rw [generate_snd_blank c now gen genFrom token he ht] at hnone
        have h0 : gen_loop_go gen 10 0 = none := hnone
        have := (gen_loop_go_eq_none gen 10 0).mp h0 j hj
        simpa using this
      | false =>
        cases hs : (genFrom token).trim.isEmpty with
        | true =>
          rw [generate_snd_seed_blank c now gen genFrom token he ht hs] at hnone
          have h0 : gen_loop_go gen 10 0 = none := hnone
          have := (gen_loop_go_eq_none gen 10 0).mp h0 j hj
          simpa using this
        | false =>
          rw [generate_snd_seed_ok c now gen genFrom token he ht hs] at hnone
          exact Option.noConfusion hnone
  · intro s hsome
    cases he : c.chain.is_empty with
    | true =>
      rw [generate_snd_empty c now gen genFrom token he] at hsome
      simp only [Option.some.injEq] at hsome
      exact Or.inl hsome.symm
    | false =>
      cases ht : token.trim.isEmpty with
      | true =>
        rw [generate_snd_blank c now gen genFrom token he ht] at hsome
        exact Or.inr (gen_loop_go_some_nonblank gen 10 0 s hsome)
      | false =>
        cases hs : (genFrom token).trim.isEmpty with
        | true =>
          rw [generate_snd_seed_blank c now gen genFrom token he ht hs] at hsome
          exact Or.inr (gen_loop_go_some_nonblank gen 10 0 s hsome)
        | false =>
          rw [generate_snd_seed_ok c now gen genFrom token he ht hs] at hsome
          simp only [Option.some.injEq] at hsome
          exact Or.inr (hsome ▸ hs)

/-- Witness for C5: an empty model answers the fixed message. -/
theorem generate_retry_contract_witness :
    (ChainInfo.generate ⟨⟨[]⟩, 2, true, 0⟩ 5 (fun _ => "") (fun t => t) "x").2
      = some "[no phrases learnt]" :=
  (generate_retry_contract ⟨⟨[]⟩, 2, true, 0⟩ 5 (fun _ => "") (fun t => t) "x").2.1 rfl

/-- C2 (amended): `load` behaviour of `ChainInfo::new`: a store-level failure
after retries is surfaced as an error; an absent blob gives a fresh empty
entry; a readable blob gives the stored entry with `last_accessed` refreshed;
a blob that fails to deserialize surfaces an error to the caller — the
corrupt blob is NOT deleted (the load path performs no store write) and no
fresh entry is fabricated. -/
theorem load_contract (store : BlobStore) (chat_id : Int) (now : Nat) :
    (∀ e, ChainInfo.new store chat_id (some e) now = Except.error e) ∧
    (store chat_id = none →
      ChainInfo.new store chat_id none now
        = Except.ok { chain := Chain.new, chat_id := chat_id, is_learning := true,
                      last_accessed := now }) ∧
    (∀ c, store chat_id = some (Blob.good c) →
      ChainInfo.new store chat_id none now = Except.ok { c with last_accessed := now }) ∧
    (∀ emsg, store chat_id = some (Blob.corrupt emsg) →
      ChainInfo.new store chat_id none now
        = Except.error ("Deserialization failed for " ++ toString chat_id ++ ": " ++ emsg)) := by
  refine ⟨?_, ?_, ?_, ?_⟩ <;> intros <;>
    simp_all [ChainInfo.new, ChainInfo.deserialize_from_gdrive, download_file]

/-- Witness for C2: a concrete store with a readable blob under id 7 loads
the stored entry with `last_accessed` refreshed. -/
theorem load_contract_witness :
    ChainInfo.new (fun k => if k = 7 then some (Blob.good ⟨⟨["x y"]⟩, 7, false, 1⟩) else none)
        7 none 9
      = Except.ok { chain := ⟨["x y"]⟩, chat_id := 7, is_learning := false, last_accessed := 9 } :=
  (load_contract (fun k => if k = 7 then some (Blob.good ⟨⟨["x y"]⟩, 7, false, 1⟩) else none)
      7 9).2.2.1 ⟨⟨["x y"]⟩, 7, false, 1⟩ rfl

/-- Counterexample for C2: with a corrupt blob under id 7, `ChainInfo::new`
returns the deserialization error to its caller — no fresh entry is returned
and the failure is propagated, contrary to the claim. -/
theorem load_corrupt_propagates_cex :
    ChainInfo.new (fun k => if k = 7 then some (Blob.corrupt "bad") else none) 7 none 3
        = Except.error "Deserialization failed for 7: bad" ∧
    ChainInfo.new (fun k => if k = 7 then some (Blob.corrupt "bad") else none) 7 none 3
        ≠ Except.ok { chain := Chain.new, chat_id := 7, is_learning := true,
                      last_accessed := 3 } :=
  ⟨rfl, fun h => Except.noConfusion h⟩

/-- C1 (amended): `ChainInfo::clear_data` resets the model to empty,
re-enables learning and updates `last_accessed`, but it does NOT delete the
persisted blob: it serializes the now-empty record and uploads it (on store
success the blob holds the empty record; on store failure the store is
unchanged and the error is reported).  The persist path
(`serialize_to_gdrive`), by contrast, never writes an empty model. -/
theorem clear_data_contract (c : ChainInfo) (now : Nat) (store : BlobStore) :
    (∀ putFail, (c.clear_data now store putFail).1
        = { chain := Chain.new, chat_id := c.chat_id, is_learning := true,
            last_accessed := now }) ∧
    ((c.clear_data now store none).2.1 c.chat_id
        = some (Blob.good { chain := Chain.new, chat_id := c.chat_id, is_learning := true,
                            last_accessed := now }) ∧
      (c.clear_data now store none).2.2 = none) ∧
    (∀ e, (c.clear_data now store (some e)).2.1 = store ∧
          (c.clear_data now store (some e)).2.2 = some e) ∧
    (∀ (c' : ChainInfo) (store' : BlobStore) (pf : Option String),
      c'.chain.is_empty = true → c'.serialize_to_gdrive store' pf = (store', none)) := by
  refine ⟨?_, ⟨?_, ?_⟩, ?_, ?_⟩
  · intro pf; cases pf <;> rfl
  · simp [ChainInfo.clear_data, ChainInfo.get_bincode, update_or_create_file]
  · rfl
  · intro e; exact ⟨rfl, rfl⟩
  · intro c' store' pf h; simp [ChainInfo.serialize_to_gdrive, h]

/-- Witness for C1: the persist path writes nothing for an empty model. -/
theorem clear_data_contract_witness :
    ChainInfo.serialize_to_gdrive ⟨Chain.new, 4, true, 9⟩ (fun _ => none) none
      = ((fun _ => none : BlobStore), none) :=
  (clear_data_contract ⟨⟨["x"]⟩, 4, false, 2⟩ 9 (fun _ => none)).2.2.2
    ⟨Chain.new, 4, true, 9⟩ (fun _ => none) none rfl

/-- Counterexample for C1: after `clear_data` on a concrete entry with id 5,
the store still holds a blob under key 5 — the serialization of the now-empty
record — instead of the blob having been deleted. -/
theorem clear_data_no_delete_cex :
    (ChainInfo.clear_data ⟨⟨["hello"]⟩, 5, true, 0⟩ 1 (fun _ => none) none).2.1 5
        = some (Blob.good ⟨Chain.new, 5, true, 1⟩) ∧
    (ChainInfo.clear_data ⟨⟨["hello"]⟩, 5, true, 0⟩ 1 (fun _ => none) none).2.1 5 ≠ none :=
  ⟨rfl, fun h => Option.noConfusion h⟩

/-- A key is absent from the map iff no entry carries it. -/
theorem ChainMap.find_eq_none_iff (m : ChainMap) (chat_id : Int) :
    m.find chat_id = none ↔ ∀ p ∈ m, p.1 ≠ chat_id := by
  induction m with
  | nil => simp [ChainMap.find]
  | cons hd tl ih =>
    cases hd with
    | mk k v =>
      by_cases hk : k = chat_id
      · subst hk
        simp [ChainMap.find]
      · simp [ChainMap.find, hk, ih]

/-- Erasing an absent key leaves the map unchanged. -/
theorem ChainMap.erase_of_find_none (m : ChainMap) (chat_id : Int)
    (h : m.find chat_id = none) : m.erase chat_id = m := by
  induction m with
  | nil => rfl
  | cons hd tl ih =>
    cases hd with
    | mk k v =>
      by_cases hk : k = chat_id
      · subst hk; simp [ChainMap.find] at h
      · simp [ChainMap.find, hk] at h
        simp [ChainMap.erase, hk, ih h]

/-- After erasing a key it is absent. -/
theorem ChainMap.find_erase (m : ChainMap) (chat_id : Int) :
    (m.erase chat_id).find chat_id = none := by
  induction m with
  | nil => rfl
  | cons hd tl ih =>
    cases hd with
    | mk k v =>
      by_cases hk : k = chat_id
      · simp [ChainMap.erase, hk, ih]
      · simp [ChainMap.erase, ChainMap.find, hk, ih]

/-- Writing back under an absent key changes nothing. -/
theorem ChainMap.store_back_of_find_none (m : ChainMap) (chat_id : Int)
    (c : ChainInfo) (h : m.find chat_id = none) : m.store_back chat_id c = m := by
  induction m with
  | nil => rfl
  | cons hd tl ih =>
    cases hd with
    | mk k v =>
      by_cases hk : k = chat_id
      · subst hk; simp [ChainMap.find] at h
      · simp [ChainMap.find, hk] at h
        simp [ChainMap.store_back, hk] at ih ⊢
        exact ih h

/-- Writing back into a freshly inserted entry, with the key otherwise
absent, replaces just that entry. -/
theorem ChainMap.store_back_insert (m : ChainMap) (chat_id : Int)
    (c c' : ChainInfo) (h : m.find chat_id = none) :
    ChainMap.store_back ((chat_id, c) :: m) chat_id c' = (chat_id, c') :: m := by
  have hm := ChainMap.store_back_of_find_none m chat_id c' h
  simp [ChainMap.store_back] at hm ⊢
  exact hm

/-- C10: when `clear_data` is called on a resident entry, the entry is
removed from the in-memory map before the store write is attempted; even
when the store write fails (the call answers the generic failure message)
the entry stays removed and the store is untouched — the in-memory clear is
not rolled back. -/
theorem clear_data_removes_before_write (m : ChainMap) (store : BlobStore)
    (chat_id : Int) (now : Nat) (c : ChainInfo) (h : m.find chat_id = some c) :
    (∀ putFail, (ChainWrapper.clear_data m store chat_id putFail now).2.1
        = m.erase chat_id ∧
      (ChainWrapper.clear_data m store chat_id putFail now).2.1.find chat_id = none) ∧
    (∀ e, (ChainWrapper.clear_data m store chat_id (some e) now).1
          = ChainWrapper.err_msg ∧
      (ChainWrapper.clear_data m store chat_id (some e) now).2.2 = store) := by
  have hmap : ∀ putFail, (ChainWrapper.clear_data m store chat_id putFail now).2.1
      = m.erase chat_id := by
    intro putFail
    cases putFail <;>
      simp [ChainWrapper.clear_data, ChainMap.remove, h, ChainInfo.clear_data,
            ChainInfo.drop, ChainInfo.serialize_to_gdrive, ChainInfo.get_bincode,
            update_or_create_file, Chain.new, Chain.is_empty]
  refine ⟨fun putFail => ⟨hmap putFail, ?_⟩, fun e => ⟨?_, ?_⟩⟩
  · rw [hmap putFail]
    exact ChainMap.find_erase m chat_id
  · simp [ChainWrapper.clear_data, ChainMap.remove, h, ChainInfo.clear_data,
          update_or_create_file]
  · simp [ChainWrapper.clear_data, ChainMap.remove, h, ChainInfo.clear_data,
          ChainInfo.drop, ChainInfo.serialize_to_gdrive, ChainInfo.get_bincode,
          update_or_create_file, Chain.new, Chain.is_empty]

/-- Witness for C10: a failing store write still leaves the entry removed. -/
theorem clear_data_removes_before_write_witness :
    (ChainWrapper.clear_data [(5, ⟨⟨["hello"]⟩, 5, true, 0⟩)] (fun _ => none) 5
        (some "io error") 9).1 = ChainWrapper.err_msg ∧
    (ChainWrapper.clear_data [(5, ⟨⟨["hello"]⟩, 5, true, 0⟩)] (fun _ => none) 5
        (some "io error") 9).2.1.find 5 = none :=
  ⟨((clear_data_removes_before_write [(5, ⟨⟨["hello"]⟩, 5, true, 0⟩)] (fun _ => none) 5 9
      ⟨⟨["hello"]⟩, 5, true, 0⟩ rfl).2 "io error").1,
   ((clear_data_removes_before_write [(5, ⟨⟨["hello"]⟩, 5, true, 0⟩)] (fun _ => none) 5 9
      ⟨⟨["hello"]⟩, 5, true, 0⟩ rfl).1 (some "io error")).2⟩

/-- C8 (amended): `clear_data` called twice in a row both return the success
message (when the store put succeeds), but the Blob Store afterwards still
holds a blob for the id — the serialization of the now-empty entry — rather
than no blob; the second call leaves map and store unchanged, and clearing a
never-seen id is a no-op success. -/
theorem clear_data_idempotent_overwrite (m : ChainMap) (store : BlobStore)
    (chat_id : Int) (now now' : Nat) (c : ChainInfo)
    (hfind : m.find chat_id = some c) (hkey : c.chat_id = chat_id) :
    ((ChainWrapper.clear_data m store chat_id none now).1 = "[database cleared]") ∧
    ((ChainWrapper.clear_data m store chat_id none now).2.2 chat_id
        = some (Blob.good ⟨Chain.new, chat_id, true, now⟩)) ∧
    ((ChainWrapper.clear_data (ChainWrapper.clear_data m store chat_id none now).2.1
        (ChainWrapper.clear_data m store chat_id none now).2.2 chat_id none now').1
        = "[database cleared]") ∧
    ((ChainWrapper.clear_data (ChainWrapper.clear_data m store chat_id none now).2.1
        (ChainWrapper.clear_data m store chat_id none now).2.2 chat_id none now').2.2
        = (ChainWrapper.clear_data m store chat_id none now).2.2) ∧
    (∀ (m₂ : ChainMap) (store₂ : BlobStore) (pf : Option String) (now₂ : Nat),
      m₂.find chat_id = none →
      ChainWrapper.clear_data m₂ store₂ chat_id pf now₂
        = ("[database cleared]", m₂, store₂)) := by
  have hnoo : ∀ (m₂ : ChainMap) (store₂ : BlobStore) (pf : Option String) (now₂ : Nat),
      m₂.find chat_id = none →
      ChainWrapper.clear_data m₂ store₂ chat_id pf now₂
        = ("[database cleared]", m₂, store₂) := by
    intro m₂ store₂ pf now₂ h₂
    simp [ChainWrapper.clear_data, ChainMap.remove, h₂,
          ChainMap.erase_of_find_none m₂ chat_id h₂]
  refine ⟨?_, ?_, ?_, ?_, hnoo⟩
  · simp [ChainWrapper.clear_data, ChainMap.remove, hfind, ChainInfo.clear_data,
          ChainInfo.drop, ChainInfo.serialize_to_gdrive, ChainInfo.get_bincode,
          update_or_create_file, Chain.new, Chain.is_empty]
  · simp [ChainWrapper.clear_data, ChainMap.remove, hfind, ChainInfo.clear_data,
          ChainInfo.drop, ChainInfo.serialize_to_gdrive, ChainInfo.get_bincode,
          update_or_create_file, Chain.new, Chain.is_empty, hkey]
  · have hgone : (ChainWrapper.clear_data m store chat_id none now).2.1.find chat_id
        = none := by
      have hmap : (ChainWrapper.clear_data m store chat_id none now).2.1
          = m.erase chat_id := by
        simp [ChainWrapper.clear_data, ChainMap.remove, hfind, ChainInfo.clear_data,
              ChainInfo.drop, ChainInfo.serialize_to_gdrive, ChainInfo.get_bincode,
              update_or_create_file, Chain.new, Chain.is_empty]
      rw [hmap]
      exact ChainMap.find_erase m chat_id
    rw [hnoo _ _ none now' hgone]
  · have hgone : (ChainWrapper.clear_data m store chat_id none now).2.1.find chat_id
        = none := by
      have hmap : (ChainWrapper.clear_data m store chat_id none now).2.1
          = m.erase chat_id := by
        simp [ChainWrapper.clear_data, ChainMap.remove, hfind, ChainInfo.clear_data,
              ChainInfo.drop, ChainInfo.serialize_to_gdrive, ChainInfo.get_bincode,
              update_or_create_file, Chain.new, Chain.is_empty]
      rw [hmap]
      exact ChainMap.find_erase m chat_id
    rw [hnoo _ _ none now' hgone]

/-- Witness for C8: concrete double clear on a resident id 5. -/
theorem clear_data_idempotent_overwrite_witness :
    (ChainWrapper.clear_data [(5, ⟨⟨["hello"]⟩, 5, true, 0⟩)] (fun _ => none) 5 none 1).1
        = "[database cleared]" ∧
    (ChainWrapper.clear_data [(5, ⟨⟨["hello"]⟩, 5, true, 0⟩)] (fun _ => none) 5 none 1).2.2 5
        = some (Blob.good ⟨Chain.new, 5, true, 1⟩) :=
  ⟨(clear_data_idempotent_overwrite [(5, ⟨⟨["hello"]⟩, 5, true, 0⟩)] (fun _ => none) 5 1 2
      ⟨⟨["hello"]⟩, 5, true, 0⟩ rfl rfl).1,
   (clear_data_idempotent_overwrite [(5, ⟨⟨["hello"]⟩, 5, true, 0⟩)] (fun _ => none) 5 1 2
      ⟨⟨["hello"]⟩, 5, true, 0⟩ rfl rfl).2.1⟩

/-- Counterexample for C8: after two successful `clear_data` calls on a
previously resident id both calls answered the success message, yet a
persisted blob for that id still exists in the store (the empty record was
uploaded, not deleted), contradicting the claim that no persisted blob
remains. -/
theorem clear_data_blob_remains_cex :
    (ChainWrapper.clear_data [(5, ⟨⟨["hello"]⟩, 5, true, 0⟩)] (fun _ => none) 5 none 1).1
        = "[database cleared]" ∧
    (ChainWrapper.clear_data
        (ChainWrapper.clear_data [(5, ⟨⟨["hello"]⟩, 5, true, 0⟩)] (fun _ => none) 5 none 1).2.1
        (ChainWrapper.clear_data [(5, ⟨⟨["hello"]⟩, 5, true, 0⟩)] (fun _ => none) 5 none 1).2.2
        5 none 2).1 = "[database cleared]" ∧
    (ChainWrapper.clear_data
        (ChainWrapper.clear_data [(5, ⟨⟨["hello"]⟩, 5, true, 0⟩)] (fun _ => none) 5 none 1).2.1
        (ChainWrapper.clear_data [(5, ⟨⟨["hello"]⟩, 5, true, 0⟩)] (fun _ => none) 5 none 1).2.2
        5 none 2).2.2 5 ≠ none :=
  ⟨rfl, rfl, fun h => Option.noConfusion h⟩

/-- C3: when the load of an unseen id fails at store level, the cache map is
left unchanged (no entry inserted), `generate` answers the generic failure
message (no internal detail), and a later call whose load succeeds still
works, inserting the freshly loaded entry. -/
theorem load_failure_leaves_cache (m : ChainMap) (store : BlobStore) (chat_id : Int)
    (now : Nat) (gen : Nat → String) (genFrom : String → String) (token : String)
    (e : String) (h : m.find chat_id = none) :
    (ChainWrapper.generate m store chat_id (some e) now gen genFrom token
        = (ChainWrapper.err_msg, m)) ∧
    (store chat_id = none →
      ChainWrapper.generate m store chat_id none now gen genFrom token
        = ("[no phrases learnt]", (chat_id, ⟨Chain.new, chat_id, true, now⟩) :: m)) := by
  constructor
  · simp [ChainWrapper.generate, ChainWrapper.get_chain, h, ChainInfo.new,
          ChainInfo.deserialize_from_gdrive, download_file]
  · intro hstore
    have hsb := ChainMap.store_back_insert m chat_id
      ⟨Chain.new, chat_id, true, now⟩ ⟨Chain.new, chat_id, true, now⟩ h
    simp only [Chain.new] at hsb
    simp [ChainWrapper.generate, ChainWrapper.get_chain, h, ChainInfo.new,
          ChainInfo.deserialize_from_gdrive, download_file, hstore,
          ChainInfo.generate, Chain.new, Chain.is_empty, hsb]

/-- Witness for C3: five-failures-then-success scenario at id 7 — the failing
call leaves the empty cache empty and answers the generic message; the
following successful call works. -/
theorem load_failure_leaves_cache_witness :
    ChainWrapper.generate [] (fun _ => none) 7 (some "net down") 4
        (fun _ => "g") (fun t => t) "x"
      = (ChainWrapper.err_msg, []) ∧
    ChainWrapper.generate [] (fun _ => none) 7 none 4 (fun _ => "g") (fun t => t) "x"
      = ("[no phrases learnt]", [(7, ⟨Chain.new, 7, true, 4⟩)]) :=
  ⟨(load_failure_leaves_cache [] (fun _ => none) 7 4 (fun _ => "g") (fun t => t) "x"
      "net down" rfl).1,
   (load_failure_leaves_cache [] (fun _ => none) 7 4 (fun _ => "g") (fun t => t) "x"
      "net down" rfl).2 rfl⟩

/-- The schedule `random_durations` always yields five delays. -/
theorem random_durations_length (jit : Nat → ℚ) :
    (random_durations jit).length = 5 := by
  simp [random_durations]

/-- The blocking retry loop makes at most one invocation more than there are
delays. -/
theorem retryRun_count_le {E A : Type} (op : Nat → Except E A) :
    ∀ (ds : List ℚ) (i : Nat), (retryRun op ds i).2 ≤ i + ds.length + 1 := by
  intro ds
  induction ds with
  | nil =>
    intro i
    cases hop : op i <;> simp [retryRun, hop]
  | cons d rest ih =>
    intro i
    cases hop : op i with
    | ok a => simp [retryRun, hop]
    | error e =>
      simp only [retryRun, hop]
      have := ih (i + 1)
      simp only [List.length_cons]
      omega

/-- If every attempt fails, the blocking retry loop returns the last error
after `length + 1` invocations. -/
theorem retryRun_all_fail {E A : Type} (op : Nat → Except E A) (f : Nat → E) :
    ∀ (ds : List ℚ) (i : Nat),
      (∀ j, j ≤ ds.length → op (i + j) = Except.error (f (i + j))) →
      retryRun op ds i = (Except.error (f (i + ds.length)), i + ds.length + 1) := by
  intro ds
  induction ds with
  | nil =>
    intro i h
    have h0 := h 0 (by omega)
    rw [Nat.add_zero] at h0
    simp [retryRun, h0]
  | cons d rest ih =>
    intro i h
    have h0 := h 0 (by omega)
    rw [Nat.add_zero] at h0
    have hrest : ∀ j, j ≤ rest.length → op ((i + 1) + j) = Except.error (f ((i + 1) + j)) := by
      intro j hj
      have hh := h (j + 1) (by simp only [List.length_cons]; omega)
      rw [show i + (j + 1) = (i + 1) + j from by omega] at hh
      exact hh
    simp only [retryRun, h0]
    rw [ih (i + 1) hrest]
    simp only [List.length_cons]
    have e1 : i + 1 + rest.length = i + (rest.length + 1) := by omega
    rw [e1]

/-- The blocking retry loop returns the first success, after `k + 1`
invocations when the first `k` attempts fail. -/
theorem retryRun_first_ok {E A : Type} (op : Nat → Except E A) (a : A) :
    ∀ (ds : List ℚ) (i k : Nat), k ≤ ds.length →
      (∀ j, j < k → ∃ e, op (i + j) = Except.error e) →
      op (i + k) = Except.ok a →
      retryRun op ds i = (Except.ok a, i + k + 1) := by
  intro ds
  induction ds with
  | nil =>
    intro i k hk _ hok
    have hk0 : k = 0 := by simpa using hk
    subst hk0
    rw [Nat.add_zero] at hok
    simp [retryRun, hok]
  | cons d rest ih =>
    intro i k hk herr hok
    cases k with
    | zero =>
      rw [Nat.add_zero] at hok
      simp [retryRun, hok]
    | succ k' =>
      obtain ⟨e0, he0⟩ := herr 0 (by omega)
      rw [Nat.add_zero] at he0
      have herr' : ∀ j, j < k' → ∃ e2, op ((i + 1) + j) = Except.error e2 := by
        intro j hj
        obtain ⟨e', he'⟩ := herr (j + 1) (by omega)
        refine ⟨e', ?_⟩
        rw [show (i + 1) + j = i + (j + 1) from by omega]
        exact he'
      have hok' : op ((i + 1) + k') = Except.ok a := by
        rw [show (i + 1) + k' = i + (k' + 1) from by omega]
        exact hok
      simp only [retryRun, he0]
      rw [ih (i + 1) k' (by simp only [List.length_cons] at hk; omega) herr' hok']
      have e2 : i + 1 + k' + 1 = i + (k' + 1) + 1 := by omega
      rw [e2]

/-- The asynchronous retry loop makes exactly one invocation per delay, so at
most `length` invocations. -/
theorem retryAsyncRun_count_le {E A : Type} (op : Nat → Except E A) :
    ∀ (ds : List ℚ) (i : Nat) (acc : Option E),
      (retryAsyncRun op ds i acc).2 ≤ i + ds.length := by
  intro ds
  induction ds with
  | nil => intro i acc; simp [retryAsyncRun]
  | cons d rest ih =>
    intro i acc
    cases hop : op i with
    | ok a => simp [retryAsyncRun, hop]
    | error e =>
      simp only [retryAsyncRun, hop]
      have := ih (i + 1) (some e)
      simp only [List.length_cons]
      omega

/-- If every attempt fails, the asynchronous retry loop returns the last
error after `length` invocations. -/
theorem retryAsyncRun_all_fail {E A : Type} (op : Nat → Except E A) (f : Nat → E) :
    ∀ (ds : List ℚ) (i : Nat) (acc : Option E), ds ≠ [] →
      (∀ j, j < ds.length → op (i + j) = Except.error (f (i + j))) →
      retryAsyncRun op ds i acc
        = (some (Except.error (f (i + ds.length - 1))), i + ds.length) := by
  intro ds
  induction ds with
  | nil => intro i acc hne _; exact absurd rfl hne
  | cons d rest ih =>
    intro i acc _ h
    have h0 := h 0 (by simp)
    rw [Nat.add_zero] at h0
    simp only [retryAsyncRun, h0]
    cases rest with
    | nil => simp [retryAsyncRun]
    | cons d' rest' =>
      have hrest : ∀ j, j < (d' :: rest').length →
          op ((i + 1) + j) = Except.error (f ((i + 1) + j)) := by
        intro j hj
        have hh := h (j + 1) (by simp only [List.length_cons] at hj ⊢; omega)
        rw [show i + (j + 1) = (i + 1) + j from by omega] at hh
        exact hh
      rw [ih (i + 1) (some (f i)) (by simp) hrest]
      simp only [List.length_cons]
      have e1 : i + 1 + (rest'.length + 1) - 1 = i + (rest'.length + 1 + 1) - 1 := by omega
      have e2 : i + 1 + (rest'.length + 1) = i + (rest'.length + 1 + 1) := by omega
      rw [e1, e2]

/-- The asynchronous retry loop returns the first success, after `k + 1`
invocations when the first `k` attempts fail. -/
theorem retryAsyncRun_first_ok {E A : Type} (op : Nat → Except E A) (a : A) :
    ∀ (ds : List ℚ) (i : Nat) (acc : Option E) (k : Nat), k < ds.length →
      (∀ j, j < k → ∃ e, op (i + j) = Except.error e) →
      op (i + k) = Except.ok a →
      retryAsyncRun op ds i acc = (some (Except.ok a), i + k + 1) := by
  intro ds
  induction ds with
  | nil =>
    intro i acc k hk _ _
    simp at hk
  | cons d rest ih =>
    intro i acc k hk herr hok
    cases k with
    | zero =>
      rw [Nat.add_zero] at hok
      simp [retryAsyncRun, hok]
    | succ k' =>
      obtain ⟨e0, he0⟩ := herr 0 (by omega)
      rw [Nat.add_zero] at he0
      have herr' : ∀ j, j < k' → ∃ e2, op ((i + 1) + j) = Except.error e2 := by
        intro j hj
        obtain ⟨e', he'⟩ := herr (j + 1) (by omega)
        refine ⟨e', ?_⟩
        rw [show (i + 1) + j = i + (j + 1) from by omega]
        exact he'
      have hok' : op ((i + 1) + k') = Except.ok a := by
        rw [show (i + 1) + k' = i + (k' + 1) from by omega]
        exact hok
      simp only [retryAsyncRun, he0]
      rw [ih (i + 1) (some e0) k' (by simp only [List.length_cons] at hk; omega) herr' hok']
      have e2 : i + 1 + k' + 1 = i + (k' + 1) + 1 := by omega
      rw [e2]

/-- C4 (amended): the Retry Helper drives the operation through the 5-delay
jittered exponential backoff schedule (base 2ms doubling each step, each
delay multiplied by its random jitter factor and scaled by 100); the blocking
variant (`retry` crate: one initial attempt plus one retry per delay) invokes
the operation at most 6 times, the asynchronous variant (one attempt per
delay, waiting before every attempt including the first) at most 5 times;
both return the first success and, when all attempts fail, a failure carrying
the last error. -/
theorem retry_helper_contract {E A : Type} (jit : Nat → ℚ) (op : Nat → Except E A) :
    ((exponential_retry jit op).2 ≤ 6) ∧
    ((exponential_retry_async jit op).2 ≤ 5) ∧
    (∀ f : Nat → E, (∀ j, j ≤ 5 → op j = Except.error (f j)) →
      exponential_retry jit op = (Except.error (f 5), 6)) ∧
    (∀ (k : Nat) (a : A), k ≤ 5 → (∀ j, j < k → ∃ e, op j = Except.error e) →
      op k = Except.ok a → exponential_retry jit op = (Except.ok a, k + 1)) ∧
    (∀ f : Nat → E, (∀ j, j < 5 → op j = Except.error (f j)) →
      exponential_retry_async jit op = (some (Except.error (f 4)), 5)) ∧
    (∀ (k : Nat) (a : A), k < 5 → (∀ j, j < k → ∃ e, op j = Except.error e) →
      op k = Except.ok a → exponential_retry_async jit op = (some (Except.ok a), k + 1)) ∧
    (random_durations jit
      = [2 * jit 0 * 100, 2 * 2 * jit 1 * 100, 2 * 2 * 2 * jit 2 * 100,
         2 * 2 * 2 * 2 * jit 3 * 100, 2 * 2 * 2 * 2 * 2 * jit 4 * 100]) := by
  refine ⟨?_, ?_, ?_, ?_, ?_, ?_, rfl⟩
  · have h := retryRun_count_le op (random_durations jit) 0
    rw [random_durations_length] at h
    simpa [exponential_retry] using h
  · have h := retryAsyncRun_count_le op (random_durations jit) 0 none
    rw [random_durations_length] at h
    simpa [exponential_retry_async] using h
  · intro f hf
    have h := retryRun_all_fail op f (random_durations jit) 0
      (by intro j hj; rw [Nat.zero_add]
          exact hf j (by rwa [random_durations_length] at hj))
    rw [random_durations_length] at h
    simpa [exponential_retry] using h
  · intro k a hk herr hok
    have h := retryRun_first_ok op a (random_durations jit) 0 k
      (by rwa [random_durations_length])
      (by intro j hj; rw [Nat.zero_add]; exact herr j hj)
      (by rw [Nat.zero_add]; exact hok)
    simpa [exponential_retry] using h
  · intro f hf
    have h := retryAsyncRun_all_fail op f (random_durations jit) 0 none
      (by rw [show random_durations jit
            = [2 * jit 0 * 100, 2 * 2 * jit 1 * 100, 2 * 2 * 2 * jit 2 * 100,
               2 * 2 * 2 * 2 * jit 3 * 100, 2 * 2 * 2 * 2 * 2 * jit 4 * 100] from rfl]
          simp)
      (by intro j hj; rw [Nat.zero_add]
          exact hf j (by rwa [random_durations_length] at hj))
    rw [random_durations_length] at h
    simpa [exponential_retry_async] using h
  · intro k a hk herr hok
    have h := retryAsyncRun_first_ok op a (random_durations jit) 0 none k
      (by rwa [random_durations_length])
      (by intro j hj; rw [Nat.zero_add]; exact herr j hj)
      (by rw [Nat.zero_add]; exact hok)
    simpa [exponential_retry_async] using h

/-- Witness for C4: an always-failing operation run through the blocking
helper returns the last error after 6 invocations, and through the
asynchronous helper after 5. -/
theorem retry_helper_contract_witness :
    exponential_retry (fun _ => (1 : ℚ)) (fun _ => (Except.error "e" : Except String Unit))
        = (Except.error "e", 6) ∧
    exponential_retry_async (fun _ => (1 : ℚ))
        (fun _ => (Except.error "e" : Except String Unit))
        = (some (Except.error "e"), 5) :=
  ⟨(retry_helper_contract (fun _ => (1 : ℚ))
      (fun _ => (Except.error "e" : Except String Unit))).2.2.1
        (fun _ => "e") (fun _ _ => rfl),
   (retry_helper_contract (fun _ => (1 : ℚ))
      (fun _ => (Except.error "e" : Except String Unit))).2.2.2.2.1
        (fun _ => "e") (fun _ _ => rfl)⟩

/-- Counterexample for C4: the blocking `exponential_retry` invokes an
always-failing operation 6 times — one initial attempt plus one retry per
each of the 5 delays — not at most 5 times as the claim states. -/
theorem retry_six_invocations_cex :
    (exponential_retry (fun _ => (1 : ℚ) / 2)
        (fun _ => (Except.error "boom" : Except String Unit))).2 = 6 := rfl

/-- Definitional unfolding of `prune` on a non-empty map. -/
theorem prune_cons_eq (maxTd now : Nat) (putFail : Int → Option String)
    (chat_id : Int) (c : ChainInfo) (tl : ChainMap) (store : BlobStore) :
    ChainWrapper.prune maxTd now putFail ((chat_id, c) :: tl) store
      = match ChainWrapper.is_old maxTd now c with
        | none => none
        | some true =>
            ChainWrapper.prune maxTd now putFail tl (c.drop store (putFail chat_id))
        | some false =>
            match ChainWrapper.prune maxTd now putFail tl store with
            | some (m', store') => some ((chat_id, c) :: m', store')
            | none => none := rfl

/-- Dropping an entry leaves every other key of the store unchanged. -/
theorem ChainInfo.drop_ne (c : ChainInfo) (store : BlobStore) (pf : Option String)
    (k : Int) (hk : c.chat_id ≠ k) : c.drop store pf k = store k := by
  by_cases he : c.chain.is_empty = true
  · simp [ChainInfo.drop, ChainInfo.serialize_to_gdrive, he]
  · cases pf with
    | none =>
      simp [ChainInfo.drop, ChainInfo.serialize_to_gdrive, he, update_or_create_file,
            Ne.symm hk]
    | some e =>
      simp [ChainInfo.drop, ChainInfo.serialize_to_gdrive, he, update_or_create_file]

/-- Dropping a non-empty entry persists its serialization under its own key
when the store put succeeds. -/
theorem ChainInfo.drop_self (c : ChainInfo) (store : BlobStore)
    (he : c.chain.is_empty = false) :
    c.drop store none c.chat_id = some (Blob.good c) := by
  simp [ChainInfo.drop, ChainInfo.serialize_to_gdrive, he, update_or_create_file,
        ChainInfo.get_bincode]

/-- The operation `prune` aborts (models the `elapsed().unwrap()` panic) exactly when some
resident entry's `last_accessed` lies in the future. -/
theorem prune_none_iff (maxTd now : Nat) (putFail : Int → Option String) :
    ∀ (m : ChainMap) (store : BlobStore),
      ChainWrapper.prune maxTd now putFail m store = none
        ↔ ∃ p ∈ m, now < p.2.last_accessed := by
  intro m
  induction m with
  | nil => intro store; simp [ChainWrapper.prune]
  | cons hd tl ih =>
    intro store
    obtain ⟨chat_id, c⟩ := hd
    rw [prune_cons_eq]
    by_cases hla : c.last_accessed ≤ now
    · have hlt : ¬ now < c.last_accessed := by omega
      cases hb : decide (now - c.last_accessed > maxTd) with
      | true =>
        have ho : ChainWrapper.is_old maxTd now c = some true := by
          simp [ChainWrapper.is_old, hla, hb]
        simp only [ho]
        rw [ih (c.drop store (putFail chat_id))]
        constructor
        · rintro ⟨p, hpm, hpf⟩; exact ⟨p, List.mem_cons_of_mem _ hpm, hpf⟩
        · rintro ⟨p, hpm, hpf⟩
          cases List.mem_cons.mp hpm with
          | inl heq =>
            rw [heq] at hpf
            exact absurd (show now < c.last_accessed from hpf) (by omega)
          | inr h2 => exact ⟨p, h2, hpf⟩
      | false =>
        have ho : ChainWrapper.is_old maxTd now c = some false := by
          simp [ChainWrapper.is_old, hla, hb]
        simp only [ho]
        cases hrec : ChainWrapper.prune maxTd now putFail tl store with
        | none =>
          simp only
          constructor
          · intro _
            obtain ⟨p, hpm, hpf⟩ := (ih store).mp hrec
            exact ⟨p, List.mem_cons_of_mem _ hpm, hpf⟩
          · intro _; trivial
        | some pr =>
          obtain ⟨m2, s2⟩ := pr
          simp only
          constructor
          · intro hc; exact Option.noConfusion hc
          · rintro ⟨p, hpm, hpf⟩
            cases List.mem_cons.mp hpm with
            | inl heq =>
              rw [heq] at hpf
              exact absurd (show now < c.last_accessed from hpf) (by omega)
            | inr h2 =>
              have hn := (ih store).mpr ⟨p, h2, hpf⟩
              rw [hrec] at hn
              exact Option.noConfusion hn
    · have ho : ChainWrapper.is_old maxTd now c = none := by
        simp [ChainWrapper.is_old, hla]
      simp only [ho]
      constructor
      · intro _
        exact ⟨(chat_id, c), List.mem_cons_self _ _, show now < c.last_accessed by omega⟩
      · intro _; trivial

/-- C6: when `prune` runs to completion (no resident entry has a future
`last_accessed`, keys are unique and each entry carries its own key), every
entry idle longer than the threshold is absent from the resulting map and —
when its model was non-empty and the store put succeeds — was persisted to
the store under its key before removal; every entry at most `maxTd` idle
remains resident unchanged; keys of no pruned entry are touched in the
store. -/
theorem prune_spec (maxTd now : Nat) (putFail : Int → Option String) :
    ∀ (m : ChainMap) (store : BlobStore),
      (∀ p ∈ m, p.2.last_accessed ≤ now) →
      ((m.map Prod.fst).Nodup) →
      (∀ p ∈ m, p.2.chat_id = p.1) →
      ∃ m' s', ChainWrapper.prune maxTd now putFail m store = some (m', s') ∧
        m' = m.filter (fun p => decide (now - p.2.last_accessed ≤ maxTd)) ∧
        (∀ p ∈ m, maxTd < now - p.2.last_accessed →
          (∀ q ∈ m', q.1 ≠ p.1) ∧
          (p.2.chain.is_empty = false → putFail p.1 = none →
            s' p.1 = some (Blob.good p.2))) ∧
        (∀ p ∈ m, now - p.2.last_accessed ≤ maxTd → p ∈ m') ∧
        (∀ k, (∀ p ∈ m, p.2.chat_id ≠ k) → s' k = store k) := by
  intro m
  induction m with
  | nil =>
    intro store _ _ _
    exact ⟨[], store, rfl, rfl, by simp, by simp, fun k _ => rfl⟩
  | cons hd tl ih =>
    intro store hla hnd hkey
    obtain ⟨chat_id, c⟩ := hd
    simp only [List.map_cons, List.nodup_cons] at hnd
    have hlac : c.last_accessed ≤ now := hla (chat_id, c) (List.mem_cons_self _ _)
    have hck : c.chat_id = chat_id := hkey (chat_id, c) (List.mem_cons_self _ _)
    have hla' : ∀ p ∈ tl, p.2.last_accessed ≤ now :=
      fun p hp => hla p (List.mem_cons_of_mem _ hp)
    have hkey' : ∀ p ∈ tl, p.2.chat_id = p.1 :=
      fun p hp => hkey p (List.mem_cons_of_mem _ hp)
    have hqne : ∀ q ∈ tl, q.1 ≠ chat_id := by
      intro q hq heq
      exact hnd.1 (heq ▸ List.mem_map_of_mem Prod.fst hq)
    by_cases hold : maxTd < now - c.last_accessed
    · have ho : ChainWrapper.is_old maxTd now c = some true := by
        simp [ChainWrapper.is_old, hlac, hold]
      obtain ⟨m', s', hp, hfil, hpers, hkeep, htouch⟩ :=
        ih (c.drop store (putFail chat_id)) hla' hnd.2 hkey'
      refine ⟨m', s', ?_, ?_, ?_, ?_, ?_⟩
      · rw [prune_cons_eq]
        simp only [ho]
        exact hp
      · have hpf : (decide (now - c.last_accessed ≤ maxTd)) = false :=
          decide_eq_false (by omega)
        rw [List.filter_cons]
        simp only [hpf]
        exact hfil
      · intro p hpm hpold
        cases List.mem_cons.mp hpm with
        | inl heq =>
          subst heq
          constructor
          · intro q hq
            rw [hfil] at hq
            exact hqne q (List.mem_of_mem_filter hq)
          · intro hne hpfn
            have htl : s' chat_id = (c.drop store (putFail chat_id)) chat_id := by
              refine htouch chat_id ?_
              intro q hq
              rw [hkey' q hq]
              exact hqne q hq
            have hw : (c.drop store (putFail chat_id)) chat_id = some (Blob.good c) := by
              rw [← hck]
              have hpfn' : putFail c.chat_id = none := by rw [hck]; exact hpfn
              rw [hpfn']
              exact ChainInfo.drop_self c store hne
            rw [htl, hw]
        | inr hptl => exact hpers p hptl hpold
      · intro p hpm hple
        cases List.mem_cons.mp hpm with
        | inl heq =>
          subst heq
          exact absurd (show now - c.last_accessed ≤ maxTd from hple) (by omega)
        | inr hptl => exact hkeep p hptl hple
      · intro k hk
        have h1 := htouch k (fun q hq => hk q (List.mem_cons_of_mem _ hq))
        rw [h1]
        exact ChainInfo.drop_ne c store (putFail chat_id) k
          (hk (chat_id, c) (List.mem_cons_self _ _))
    · have ho : ChainWrapper.is_old maxTd now c = some false := by
        simp [ChainWrapper.is_old, hlac, hold]
      obtain ⟨m2, s2, hp, hfil, hpers, hkeep, htouch⟩ := ih store hla' hnd.2 hkey'
      refine ⟨(chat_id, c) :: m2, s2, ?_, ?_, ?_, ?_, ?_⟩
      · rw [prune_cons_eq]
        simp only [ho, hp]
      · have hpt : (decide (now - c.last_accessed ≤ maxTd)) = true :=
          decide_eq_true (by omega)
        rw [List.filter_cons]
        simp [hpt, hfil]
        rw [if_pos (show now ≤ maxTd + c.last_accessed by omega)]
      · intro p hpm hpold
        cases List.mem_cons.mp hpm with
        | inl heq =>
          subst heq
          exact absurd (show maxTd < now - c.last_accessed from hpold) hold
        | inr hptl =>
          obtain ⟨hq1, hw1⟩ := hpers p hptl hpold
          refine ⟨?_, hw1⟩
          intro q hqm
          cases List.mem_cons.mp hqm with
          | inl heq2 =>
            rw [heq2]
            intro hcon
            exact hqne p hptl hcon.symm
          | inr h2 => exact hq1 q h2
      · intro p hpm hple
        cases List.mem_cons.mp hpm with
        | inl heq => rw [heq]; exact List.mem_cons_self _ _
        | inr hptl => exact List.mem_cons_of_mem _ (hkeep p hptl hple)
      · intro k hk
        exact htouch k (fun q hq => hk q (List.mem_cons_of_mem _ hq))

/-- Witness for C6: a concrete map with an old non-empty entry (id 5, idle
10 > threshold 3) and a recent entry (id 6, idle 1): after `prune` only id 6
is resident and id 5's record was persisted. -/
theorem prune_spec_witness :
    ∃ m' s', ChainWrapper.prune 3 10 (fun _ => none)
        [(5, ⟨⟨["hello world"]⟩, 5, true, 0⟩), (6, ⟨⟨["a"]⟩, 6, true, 9⟩)] (fun _ => none)
      = some (m', s') ∧ m' = [(6, ⟨⟨["a"]⟩, 6, true, 9⟩)]
      ∧ s' 5 = some (Blob.good ⟨⟨["hello world"]⟩, 5, true, 0⟩) := by
  obtain ⟨m', s', hp, hfil, hpers, hkeep, htouch⟩ :=
    prune_spec 3 10 (fun _ => none)
      [(5, ⟨⟨["hello world"]⟩, 5, true, 0⟩), (6, ⟨⟨["a"]⟩, 6, true, 9⟩)] (fun _ => none)
      (by decide) (by decide) (by decide)
  refine ⟨m', s', hp, ?_, ?_⟩
  · rw [hfil]; rfl
  · exact (hpers (5, ⟨⟨["hello world"]⟩, 5, true, 0⟩) (by decide) (by decide)).2 rfl rfl

/-- C7 (amended): within this subsystem, the one modelled panic path is the
idle-time computation of `prune` (`last_accessed.elapsed().unwrap()`): it
terminates the process exactly when some resident entry's `last_accessed`
lies in the future (a clock running backwards); when every entry's
`last_accessed` is at most `now`, `prune` returns normally. -/
theorem prune_no_panic_unless_clock_skew (maxTd now : Nat)
    (putFail : Int → Option String) (m : ChainMap) (store : BlobStore) :
    (ChainWrapper.prune maxTd now putFail m store = none
      ↔ ∃ p ∈ m, now < p.2.last_accessed) ∧
    ((∀ p ∈ m, p.2.last_accessed ≤ now) →
      ∃ r, ChainWrapper.prune maxTd now putFail m store = some r) := by
  refine ⟨prune_none_iff maxTd now putFail m store, ?_⟩
  intro h
  cases hr : ChainWrapper.prune maxTd now putFail m store with
  | none =>
    obtain ⟨p, hpm, hpf⟩ := (prune_none_iff maxTd now putFail m store).mp hr
    exact absurd hpf (by have := h p hpm; omega)
  | some r => exact ⟨r, rfl⟩

/-- Witness for C7: with sane timestamps a concrete `prune` call returns
normally. -/
theorem prune_no_panic_witness :
    ∃ r, ChainWrapper.prune 100 50 (fun _ => none)
        [(0, ⟨⟨["hi"]⟩, 0, true, 10⟩)] (fun _ => none) = some r :=
  (prune_no_panic_unless_clock_skew 100 50 (fun _ => none)
      [(0, ⟨⟨["hi"]⟩, 0, true, 10⟩)] (fun _ => none)).2 (by decide)

/-- Counterexample for C7: a cache operation CAN terminate the process — on a
map whose single entry has `last_accessed = 10` in the future of `now = 5`,
`prune`'s time computation panics (`none`), contradicting the claim that no
internal error terminates the process. -/
theorem prune_time_panic_cex :
    ChainWrapper.prune 100 5 (fun _ => none) [(0, ⟨⟨["hi"]⟩, 0, true, 10⟩)]
      (fun _ => none) = none := rfl
